import Mathlib

/-!
Shallow embedding of `src/openalex_core.py` (a researcher-discovery tool over
the OpenAlex API) and proofs about it.

Network interaction is modelled by oracles: a function from request index (or
from request key such as a search term or author id) to the observable outcome
of that request.  `requests.get` outcomes are either a network-level exception
(`requests.exceptions.RequestException`, which in modern `requests` also covers
JSON-decoding failures of `response.json()`) or a response carrying a status
code, an optional `Retry-After` header value, and an optional parsed JSON body
(absent body on a 200 models a JSON-decoding failure).

Sleeping is modelled by accumulating the slept durations (as rationals); the
jitter drawn by `random.uniform(0, 1)` for attempt `n` is an oracle
`jitter : Nat -> Rat`.  Python JSON dictionaries are modelled as structures of
`Option`-valued fields; an absent key and a key present with JSON `null` are
both modelled as `none` (the code under study treats them the same everywhere
it matters: via `.get` defaults combined with truthiness tests).
-/

/-- Python truthiness of an optional string (`None` and `""` are falsy). -/
def pyTruthyStr : Option String → Bool
  | some s => s ≠ ""
  | none => false

/-- Python `str.split()` with no argument: split on runs of whitespace,
dropping empty pieces.  Helper on character lists; `acc` is the current token
accumulated in reverse. -/
def wsTokensAux : List Char → List Char → List (List Char)
  | acc, [] => if acc.isEmpty then [] else [acc.reverse]
  | acc, c :: cs =>
    if c.isWhitespace then
      if acc.isEmpty then wsTokensAux [] cs
      else acc.reverse :: wsTokensAux [] cs
    else wsTokensAux (c :: acc) cs

/-- Python `str.split()` on a string. -/
def pySplit (s : String) : List String :=
  (wsTokensAux [] s.toList).map List.asString

/-- Numeric value of a decimal digit character. -/
def digitVal (c : Char) : Nat := c.toNat - '0'.toNat

/-- Python `int(s)` on a string: optional surrounding whitespace, optional
sign, then decimal digits; anything else raises `ValueError`, modelled as
`none`.  (Python also accepts `_` digit-group separators; not modelled.) -/
def pyInt? (s : String) : Option Int :=
  let cs := ((s.toList.dropWhile Char.isWhitespace).reverse.dropWhile
      Char.isWhitespace).reverse
  let core : List Char → Option Nat := fun ds =>
    if ds ≠ [] ∧ ds.all Char.isDigit then
      some (ds.foldl (fun n c => n * 10 + digitVal c) 0)
    else none
  match cs with
  | '+' :: ds => (core ds).map Int.ofNat
  | '-' :: ds => (core ds).map (fun n => -(Int.ofNat n))
  | ds => (core ds).map Int.ofNat

/-! ## The request executor: `make_api_request` -/

/-- Outcome of one `requests.get` call: a network-level error (exception), or
a response with status code, optional `Retry-After` header, and optional
parsed JSON body of type `α`. -/
inductive NetResult (α : Type) where
  | exn : NetResult α
  | resp (status : Nat) (retryAfter : Option String) (body : Option α) : NetResult α
deriving DecidableEq

/-- How a call of `make_api_request` ends: with an uncaught Python exception
(`raise`), or by returning `ret v` (where `v = none` models returning `None`). -/
inductive PyOutcome (α : Type) where
  | raise : PyOutcome α
  | ret (v : Option α) : PyOutcome α
deriving DecidableEq

/-- Result of running `make_api_request`: the outcome, the total simulated
time slept, and the number of HTTP requests issued. -/
structure RunResult (α : Type) where
  outcome : PyOutcome α
  totalSleep : ℚ
  requests : Nat
deriving DecidableEq

/-- The delay slept at the top of the loop body for a given attempt index:
`2 ** attempt + random.uniform(0, 1)` for `attempt > 0`, nothing for the
first attempt. -/
def backoffDelay (jitter : Nat → ℚ) (attempt : Nat) : ℚ :=
  if 0 < attempt then (2 : ℚ) ^ attempt + jitter attempt else 0

/-- `int(response.headers.get('Retry-After', 60))`: the parsed header value,
or `60` when the header is absent; `none` models the `ValueError` raised by
`int` on unparseable content. -/
def retryAfterSeconds (h : Option String) : Option Int :=
  match h with
  | none => some 60
  | some s => pyInt? s

/-- The loop of `make_api_request`, line by line.  `rem` is the number of
loop iterations left (`maxRetries - attempt`), `attempt` the current loop
index, `k` the index of the next HTTP request in the oracle stream `resps`,
and `slept` the time slept so far.

Branches, in the source's order: 429 parses `Retry-After` (raising on bad
content or on a negative sleep), sleeps it, and continues; 200 returns the
body (an unparseable 200 body raises inside the `try` and is handled by the
`except` branch); 403 sleeps 5 s and continues; 404 returns `None`
immediately; any other status falls through to the next attempt; a network
exception returns `None` on the last attempt, else sleeps 2 s and retries.
Falling off the loop returns `None`. -/
def execAux {α : Type} (resps : Nat → NetResult α) (jitter : Nat → ℚ)
    (maxRetries : Nat) : Nat → Nat → Nat → ℚ → RunResult α
  | 0, _, k, slept => ⟨PyOutcome.ret none, slept, k⟩
  | rem + 1, attempt, k, slept =>
    let slept := slept + backoffDelay jitter attempt
    match resps k with
    | NetResult.exn =>
      if attempt = maxRetries - 1 then ⟨PyOutcome.ret none, slept, k + 1⟩
      else execAux resps jitter maxRetries rem (attempt + 1) (k + 1) (slept + 2)
    | NetResult.resp status ra body =>
      if status = 429 then
        match retryAfterSeconds ra with
        | none => ⟨PyOutcome.raise, slept, k + 1⟩
        | some t =>
          if t < 0 then ⟨PyOutcome.raise, slept, k + 1⟩
          else execAux resps jitter maxRetries rem (attempt + 1) (k + 1)
            (slept + (t : ℚ))
      else if status = 200 then
        match body with
        | some p => ⟨PyOutcome.ret (some p), slept, k + 1⟩
        | none =>
          if attempt = maxRetries - 1 then ⟨PyOutcome.ret none, slept, k + 1⟩
          else execAux resps jitter maxRetries rem (attempt + 1) (k + 1) (slept + 2)
      else if status = 403 then
        execAux resps jitter maxRetries rem (attempt + 1) (k + 1) (slept + 5)
      else if status = 404 then ⟨PyOutcome.ret none, slept, k + 1⟩
      else execAux resps jitter maxRetries rem (attempt + 1) (k + 1) slept

/-- `make_api_request(url, headers, max_retries)`.  The URL and headers only
determine which responses come back, so they are absorbed into the response
oracle `resps`. -/
def make_api_request {α : Type} (resps : Nat → NetResult α) (jitter : Nat → ℚ)
    (maxRetries : Nat) : RunResult α :=
  execAux resps jitter maxRetries maxRetries 0 0 0

/-- Response stream drawn from a finite list, behaving as a network error
past its end. -/
def streamOf {α : Type} (l : List (NetResult α)) : Nat → NetResult α :=
  fun k => l.getD k NetResult.exn

example :
    make_api_request (α := Nat)
      (streamOf [NetResult.resp 200 none (some 7)]) (fun _ => 0) 5 =
      ⟨PyOutcome.ret (some 7), 0, 1⟩ := by
  simp [make_api_request, execAux, streamOf, backoffDelay]

example :
    make_api_request (α := Nat)
      (streamOf [NetResult.resp 404 none none]) (fun _ => 0) 5 =
      ⟨PyOutcome.ret none, 0, 1⟩ := by
  simp [make_api_request, execAux, streamOf, backoffDelay]

/-! ### Executor lemmas -/

/-- A 404 response makes the current `execAux` step return `None` at once:
one more request, no sleep beyond the backoff already mandated for the
current attempt. -/
theorem execAux_404 {α : Type} (resps : Nat → NetResult α) (jitter : Nat → ℚ)
    (m rem a k : Nat) (s : ℚ) (ra : Option String) (body : Option α)
    (hk : resps k = NetResult.resp 404 ra body) :
    execAux resps jitter m (rem + 1) a k s =
      ⟨PyOutcome.ret none, s + backoffDelay jitter a, k + 1⟩ := by
  simp [execAux, hk]

/-- A response is "safe" when it cannot make `make_api_request` raise: any
network error or non-429 status, or a 429 whose `Retry-After` header is
absent or parses (via `int`) to a nonnegative integer. -/
def respSafe {α : Type} : NetResult α → Bool
  | NetResult.exn => true
  | NetResult.resp status ra _ =>
    status ≠ 429 ||
      (match retryAfterSeconds ra with
       | some t => decide (0 ≤ t)
       | none => false)

/-- A response that can neither terminate the loop with data (a 200 with a
parseable body) nor via the 404 early return. -/
def respNoData {α : Type} : NetResult α → Bool
  | NetResult.exn => true
  | NetResult.resp status _ body => !(status = 200 ∧ body.isSome ∨ status = 404)

/-- On a stream of safe responses, `execAux` never raises. -/
theorem execAux_no_raise {α : Type} (resps : Nat → NetResult α)
    (jitter : Nat → ℚ) (m : Nat) (h : ∀ k, respSafe (resps k) = true) :
    ∀ rem a k s, ∃ v, (execAux resps jitter m rem a k s).outcome = PyOutcome.ret v := by
  intro rem
  induction rem with
  | zero => intro a k s; exact ⟨none, rfl⟩
  | succ rem ih =>
    intro a k s
    rcases hk : resps k with _ | ⟨st, ra, body⟩
    · by_cases hlast : a = m - 1
      · exact ⟨none, by simp [execAux, hk, hlast]⟩
      · simpa [execAux, hk, hlast] using ih (a + 1) (k + 1) _
    · have hsafe := h k
      rw [hk] at hsafe
      by_cases h429 : st = 429
      · rcases hra : retryAfterSeconds ra with _ | t
        · simp [respSafe, h429, hra] at hsafe
        · have ht : ¬ t < 0 := by
            simp [respSafe, h429, hra] at hsafe
            omega
          simpa [execAux, hk, h429, hra, ht] using ih (a + 1) (k + 1) _
      · by_cases h200 : st = 200
        · rcases body with _ | p
          · by_cases hlast : a = m - 1
            · exact ⟨none, by simp [execAux, hk, h429, h200, hlast]⟩
            · simpa [execAux, hk, h429, h200, hlast] using ih (a + 1) (k + 1) _
          · exact ⟨some p, by simp [execAux, hk, h429, h200]⟩
        · by_cases h403 : st = 403
          · simpa [execAux, hk, h429, h200, h403] using ih (a + 1) (k + 1) _
          · by_cases h404 : st = 404
            · exact ⟨none, by simp [execAux, hk, h429, h200, h403, h404]⟩
            · simpa [execAux, hk, h429, h200, h403, h404] using ih (a + 1) (k + 1) _

/-- On a stream of safe responses none of which can deliver data, `execAux`
returns `None`. -/
theorem execAux_exhaust {α : Type} (resps : Nat → NetResult α)
    (jitter : Nat → ℚ) (m : Nat) (h : ∀ k, respSafe (resps k) = true)
    (hn : ∀ k, respNoData (resps k) = true) :
    ∀ rem a k s, (execAux resps jitter m rem a k s).outcome = PyOutcome.ret none := by
  intro rem
  induction rem with
  | zero => intro a k s; rfl
  | succ rem ih =>
    intro a k s
    rcases hk : resps k with _ | ⟨st, ra, body⟩
    · by_cases hlast : a = m - 1
      · simp [execAux, hk, hlast]
      · simpa [execAux, hk, hlast] using ih (a + 1) (k + 1) _
    · have hsafe := h k
      have hnod := hn k
      rw [hk] at hsafe hnod
      by_cases h429 : st = 429
      · rcases hra : retryAfterSeconds ra with _ | t
        · simp [respSafe, h429, hra] at hsafe
        · have ht : ¬ t < 0 := by
            simp [respSafe, h429, hra] at hsafe
            omega
          simpa [execAux, hk, h429, hra, ht] using ih (a + 1) (k + 1) _
      · by_cases h200 : st = 200
        · rcases body with _ | p
          · by_cases hlast : a = m - 1
            · simp [execAux, hk, h429, h200, hlast]
            · simpa [execAux, hk, h429, h200, hlast] using ih (a + 1) (k + 1) _
          · simp [respNoData, h200] at hnod
        · by_cases h403 : st = 403
          · simpa [execAux, hk, h429, h200, h403] using ih (a + 1) (k + 1) _
          · by_cases h404 : st = 404
            · simp [respNoData, h404] at hnod
            · simpa [execAux, hk, h429, h200, h403, h404] using ih (a + 1) (k + 1) _


/-! ### Claims about the request executor -/

/-- C7: in `make_api_request`, a 404 response is terminal: the executor
returns `None` immediately, makes no further request attempts, and sleeps no
further delay, at every attempt index. -/
theorem claim_C7 {α : Type} (resps : Nat → NetResult α) (jitter : Nat → ℚ)
    (m rem a k : Nat) (s : ℚ)
    (h : ∃ ra body, resps k = NetResult.resp 404 ra body) :
    execAux resps jitter m (rem + 1) a k s =
      ⟨PyOutcome.ret none, s + backoffDelay jitter a, k + 1⟩ := by
  obtain ⟨ra, body, hk⟩ := h
  exact execAux_404 resps jitter m rem a k s ra body hk

theorem claim_C7_witness :
    (∃ ra body,
      (fun _ : Nat => NetResult.resp (α := Nat) 404 none none) 0 =
        NetResult.resp 404 ra body) ∧
    execAux (fun _ : Nat => NetResult.resp (α := Nat) 404 none none)
        (fun _ => 0) 5 (4 + 1) 0 0 0 =
      ⟨PyOutcome.ret none, 0 + backoffDelay (fun _ => 0) 0, 0 + 1⟩ :=
  ⟨⟨none, none, rfl⟩,
    claim_C7 _ _ 5 4 0 0 0 ⟨none, none, rfl⟩⟩

/-- C8: the backoff delay slept before retry attempt `n ≥ 1` lies in
`[2^n, 2^n + 1)` (given the jitter drawn from `uniform(0,1)`), attempt 0 is
issued with zero backoff delay, and `backoffDelay` is exactly what the
executor loop adds to its slept time at the top of each iteration (witnessed
here on a terminal 404 step). -/
theorem claim_C8 (jitter : Nat → ℚ) (n : Nat) (h1 : 1 ≤ n)
    (h0 : 0 ≤ jitter n) (h2 : jitter n < 1) :
    ((2 : ℚ) ^ n ≤ backoffDelay jitter n ∧
      backoffDelay jitter n < (2 : ℚ) ^ n + 1) ∧
    backoffDelay jitter 0 = 0 ∧
    ∀ (α : Type) (resps : Nat → NetResult α) (m rem a k : Nat) (s : ℚ)
      (ra : Option String) (body : Option α),
      resps k = NetResult.resp 404 ra body →
      (execAux resps jitter m (rem + 1) a k s).totalSleep =
        s + backoffDelay jitter a := by
  refine ⟨⟨?_, ?_⟩, ?_, ?_⟩
  · unfold backoffDelay
    rw [if_pos (by omega)]
    linarith
  · unfold backoffDelay
    rw [if_pos (by omega)]
    linarith
  · simp [backoffDelay]
  · intro α resps m rem a k s ra body hk
    rw [execAux_404 resps jitter m rem a k s ra body hk]

/-- Jitter oracle constantly one half, used to instantiate C8. -/
def jitterHalf : Nat → ℚ := fun _ => 1 / 2

theorem claim_C8_witness :
    (1 ≤ 1 ∧ 0 ≤ jitterHalf 1 ∧ jitterHalf 1 < 1) ∧
    (((2 : ℚ) ^ 1 ≤ backoffDelay jitterHalf 1 ∧
      backoffDelay jitterHalf 1 < (2 : ℚ) ^ 1 + 1) ∧
    backoffDelay jitterHalf 0 = 0 ∧
    ∀ (α : Type) (resps : Nat → NetResult α) (m rem a k : Nat) (s : ℚ)
      (ra : Option String) (body : Option α),
      resps k = NetResult.resp 404 ra body →
      (execAux resps jitterHalf m (rem + 1) a k s).totalSleep =
        s + backoffDelay jitterHalf a) :=
  ⟨⟨le_refl 1, by norm_num [jitterHalf], by norm_num [jitterHalf]⟩,
    claim_C8 jitterHalf 1 (le_refl 1) (by norm_num [jitterHalf])
      (by norm_num [jitterHalf])⟩

/-- One loop step on a 429 whose `Retry-After` parses to a nonnegative `t`:
sleep `t` after the attempt's backoff and move on to the next attempt,
consuming it. -/
theorem execAux_429_step {α : Type} (resps : Nat → NetResult α)
    (jitter : Nat → ℚ) (m rem a k : Nat) (s : ℚ) (ra : Option String)
    (body : Option α) (t : Int)
    (hk : resps k = NetResult.resp 429 ra body)
    (hra : retryAfterSeconds ra = some t) (ht : 0 ≤ t) :
    execAux resps jitter m (rem + 1) a k s =
      execAux resps jitter m rem (a + 1) (k + 1)
        (s + backoffDelay jitter a + (t : ℚ)) := by
  have ht' : ¬ t < 0 := not_lt.mpr ht
  simp [execAux, hk, hra, ht']

/-- One loop step on a 200 with a parseable body: return it. -/
theorem execAux_200_step {α : Type} (resps : Nat → NetResult α)
    (jitter : Nat → ℚ) (m rem a k : Nat) (s : ℚ) (ra : Option String) (p : α)
    (hk : resps k = NetResult.resp 200 ra (some p)) :
    execAux resps jitter m (rem + 1) a k s =
      ⟨PyOutcome.ret (some p), s + backoffDelay jitter a, k + 1⟩ := by
  simp [execAux, hk]

/-- A run against nothing but 429 responses (with a well-formed nonnegative
`Retry-After`) exhausts its `rem` remaining attempts: each one sleeps its
backoff plus the `Retry-After` duration, and the loop falls through to
`return None`. -/
theorem execAux_all429 {α : Type} (resps : Nat → NetResult α)
    (jitter : Nat → ℚ) (m : Nat) (ra : Option String) (body : Option α)
    (t : Int) (hall : ∀ k, resps k = NetResult.resp 429 ra body)
    (hra : retryAfterSeconds ra = some t) (ht : 0 ≤ t) :
    ∀ rem a k s, execAux resps jitter m rem a k s =
      ⟨PyOutcome.ret none,
        s + rem * (t : ℚ) + ∑ i in Finset.range rem, backoffDelay jitter (a + i),
        k + rem⟩ := by
  intro rem
  induction rem with
  | zero => intro a k s; simp [execAux]
  | succ rem ih =>
    intro a k s
    rw [execAux_429_step resps jitter m rem a k s ra body t (hall k) hra ht,
      ih (a + 1) (k + 1) (s + backoffDelay jitter a + (t : ℚ))]
    have hsum : ∑ i in Finset.range (rem + 1), backoffDelay jitter (a + i) =
        backoffDelay jitter a +
          ∑ i in Finset.range rem, backoffDelay jitter (a + 1 + i) := by
      rw [Finset.sum_range_succ']
      simp [add_comm, add_assoc, add_left_comm]
    rw [RunResult.mk.injEq]
    refine ⟨rfl, ?_, by omega⟩
    rw [hsum]
    push_cast
    ring

/-- C1 as stated is false: after a 429 the `continue` statement moves to the
next value of `attempt`, so the retried request is preceded by the
exponential-backoff sleep of attempt 1 as well.  With `Retry-After: 60`,
one 429 then a 200 and zero jitter, the total sleep is 62 seconds, not 60. -/
theorem claim_C1_counterexample :
    (make_api_request (α := Nat)
        (streamOf [NetResult.resp 429 (some "60") none,
                   NetResult.resp 200 none (some 7)]) (fun _ => 0) 5) =
      ⟨PyOutcome.ret (some 7), 62, 2⟩ ∧ (62 : ℚ) ≠ 60 := by
  constructor
  · have h60 : retryAfterSeconds (some "60") = some 60 := by decide
    simp [make_api_request, execAux, streamOf, backoffDelay, h60]
    norm_num
  · norm_num

/-- Amended C1, stated over `make_api_request`: a 429 sleeps exactly the
`Retry-After` duration (default 60 s when the header is absent) and then
continues the loop, consuming an attempt; the re-issued request additionally
incurs the backoff sleep of the new attempt index.  For one 429 followed by a
200 the executor returns the 200 payload after `Retry-After + 2^1 + jitter`
total sleep; five consecutive 429s exhaust all five attempts and yield `None`
after five `Retry-After` sleeps plus the four backoff sleeps. -/
def C1Amended {α : Type} (p : α) (t : Int) (jitter : Nat → ℚ)
    (resps respsDef respsAll : Nat → NetResult α) : Prop :=
  make_api_request resps jitter 5 =
      ⟨PyOutcome.ret (some p), (t : ℚ) + ((2 : ℚ) ^ 1 + jitter 1), 2⟩ ∧
  make_api_request respsDef jitter 5 =
      ⟨PyOutcome.ret (some p), (60 : ℚ) + ((2 : ℚ) ^ 1 + jitter 1), 2⟩ ∧
  make_api_request respsAll jitter 5 =
      ⟨PyOutcome.ret none,
        5 * (t : ℚ) + (((2 : ℚ) ^ 1 + jitter 1) + ((2 : ℚ) ^ 2 + jitter 2) +
          ((2 : ℚ) ^ 3 + jitter 3) + ((2 : ℚ) ^ 4 + jitter 4)), 5⟩

theorem claim_C1 {α : Type} (p : α) (ra : String) (t : Int) (jitter : Nat → ℚ)
    (resps respsDef respsAll : Nat → NetResult α)
    (hra : pyInt? ra = some t) (ht : 0 ≤ t)
    (h0 : resps 0 = NetResult.resp 429 (some ra) none)
    (h1 : resps 1 = NetResult.resp 200 none (some p))
    (hd0 : respsDef 0 = NetResult.resp 429 none none)
    (hd1 : respsDef 1 = NetResult.resp 200 none (some p))
    (hall : ∀ k, respsAll k = NetResult.resp 429 (some ra) none) :
    C1Amended p t jitter resps respsDef respsAll := by
  have hraS : retryAfterSeconds (some ra) = some t := hra
  have hraD : retryAfterSeconds none = some (60 : Int) := rfl
  refine ⟨?_, ?_, ?_⟩
  · have e1 := execAux_429_step resps jitter 5 4 0 0 0 (some ra) none t h0 hraS ht
    have e2 := execAux_200_step resps jitter 5 3 1 1
      (0 + backoffDelay jitter 0 + (t : ℚ)) none p h1
    rw [show (4 : Nat) + 1 = 5 from rfl] at e1
    rw [show (3 : Nat) + 1 = 4 from rfl] at e2
    rw [make_api_request, e1, e2, RunResult.mk.injEq]
    refine ⟨rfl, ?_, rfl⟩
    simp [backoffDelay]
  · have e1 := execAux_429_step respsDef jitter 5 4 0 0 0 none none 60 hd0 hraD
      (by omega)
    have e2 := execAux_200_step respsDef jitter 5 3 1 1
      (0 + backoffDelay jitter 0 + ((60 : Int) : ℚ)) none p hd1
    rw [show (4 : Nat) + 1 = 5 from rfl] at e1
    rw [show (3 : Nat) + 1 = 4 from rfl] at e2
    rw [make_api_request, e1, e2, RunResult.mk.injEq]
    refine ⟨rfl, ?_, rfl⟩
    simp [backoffDelay]
  · rw [make_api_request,
      execAux_all429 respsAll jitter 5 (some ra) none t hall hraS ht 5 0 0 0,
      RunResult.mk.injEq]
    refine ⟨rfl, ?_, rfl⟩
    rw [Finset.sum_range_succ, Finset.sum_range_succ, Finset.sum_range_succ,
      Finset.sum_range_succ, Finset.sum_range_succ, Finset.sum_range_zero]
    simp [backoffDelay]

theorem claim_C1_witness :
    pyInt? "60" = some 60 ∧
    C1Amended 7 60 (fun _ => 0)
      (streamOf [NetResult.resp 429 (some "60") none,
                 NetResult.resp 200 none (some 7)])
      (streamOf [NetResult.resp 429 none none,
                 NetResult.resp 200 none (some 7)])
      (fun _ => NetResult.resp 429 (some "60") none) :=
  ⟨by decide,
    claim_C1 7 "60" 60 (fun _ => 0) _ _ _ (by decide) (by decide)
      rfl rfl rfl rfl (fun _ => rfl)⟩

/-- C5 as stated is false: a 429 response whose `Retry-After` header does not
parse as an integer makes `int()` raise a `ValueError`, which is not caught
by the `except requests.exceptions.RequestException` handler and so
propagates to the caller. -/
theorem claim_C5_counterexample :
    (make_api_request (α := Nat)
        (fun _ => NetResult.resp 429 (some "soon") none) (fun _ => 0)
        5).outcome = PyOutcome.raise := by
  have hbad : retryAfterSeconds (some "soon") = none := by decide
  simp [make_api_request, execAux, hbad]

/-- Amended C5: `make_api_request` raises no exception provided every 429
response carries either no `Retry-After` header or one whose content parses
(via `int`) to a nonnegative integer; under that proviso it returns a parsed
JSON document or `None`, and if no response can deliver data (no parseable
200 body), it returns `None`. -/
def C5Amended {α : Type} (resps : Nat → NetResult α) (jitter : Nat → ℚ)
    (m : Nat) : Prop :=
  (∃ v, (make_api_request resps jitter m).outcome = PyOutcome.ret v) ∧
  ((∀ k, respNoData (resps k) = true) →
    (make_api_request resps jitter m).outcome = PyOutcome.ret none)

theorem claim_C5 {α : Type} (resps : Nat → NetResult α) (jitter : Nat → ℚ)
    (m : Nat) (h : ∀ k, respSafe (resps k) = true) :
    C5Amended resps jitter m :=
  ⟨execAux_no_raise resps jitter m h m 0 0 0,
    fun hn => execAux_exhaust resps jitter m h hn m 0 0 0⟩

theorem claim_C5_witness :
    (∀ k, respSafe ((fun _ : Nat => NetResult.exn (α := Nat)) k) = true) ∧
    C5Amended (fun _ : Nat => NetResult.exn (α := Nat)) (fun _ => 0) 5 :=
  ⟨fun _ => rfl, claim_C5 _ _ 5 (fun _ => rfl)⟩

/-! ## The identity enricher: `enrich_with_orcid`

The Python function consults the module-global dict `orcid_cache`, issues at
most one `requests.get` (15 s timeout, no retry loop), and on HTTP 200
extracts the first PUBLIC email and the first truthy employment department,
caching the result dict.  On any failure (non-200 status, or any exception —
both are modelled by `OrcidNet.fail`) it returns `{}` and caches nothing.

The global cache is threaded explicitly; the returned `Nat` counts the
network requests issued by the call (0 or 1). -/

/-- One entry of `person.emails.email[]` in an ORCID record. -/
structure OrcidEmail where
  email : Option String
  visibility : Option String
deriving DecidableEq

/-- One entry of `activities-summary.employments.employment-summary[]`;
`department_name` models the JSON key `department-name`. -/
structure OrcidEmployment where
  department_name : Option String
deriving DecidableEq

/-- The pieces of a parsed ORCID profile the code reads.  The nested
`.get(..., {})` / `.get(..., [])` chains collapse absent intermediate objects
to empty lists. -/
structure OrcidData where
  emails : List OrcidEmail
  employments : List OrcidEmployment
deriving DecidableEq

/-- Outcome of the single ORCID request: HTTP 200 with a parsed profile, or
any failure (non-200 status, exception, timeout). -/
inductive OrcidNet where
  | ok (d : OrcidData) : OrcidNet
  | fail : OrcidNet
deriving DecidableEq

/-- The dict returned by `enrich_with_orcid`: `{}` on failure, or
`{"Email": _, "Department": _}` on success. -/
inductive EnrichRet where
  | empty : EnrichRet
  | found (email : Option String) (department : Option String) : EnrichRet
deriving DecidableEq

/-- `enriched.get("Email")`. -/
def EnrichRet.getEmail : EnrichRet → Option String
  | EnrichRet.empty => none
  | EnrichRet.found e _ => e

/-- `enriched.get("Department")`. -/
def EnrichRet.getDepartment : EnrichRet → Option String
  | EnrichRet.empty => none
  | EnrichRet.found _ d => d

/-- The 200 branch of `enrich_with_orcid`: email is the `email` field of the
first entry whose visibility equals `"PUBLIC"` (which may itself be absent);
department is the first truthy `department-name` across the employment
summaries. -/
def extractOrcid (d : OrcidData) : EnrichRet :=
  let email := (d.emails.find? (fun e => e.visibility = some "PUBLIC")).bind
    OrcidEmail.email
  let department :=
    (d.employments.find? (fun emp => pyTruthyStr emp.department_name)).bind
      OrcidEmployment.department_name
  EnrichRet.found email department

/-- Lookup in the explicit model of the `orcid_cache` dict. -/
def cacheLookup : List (String × EnrichRet) → String → Option EnrichRet
  | [], _ => none
  | (k, v) :: rest, oid => if k = oid then some v else cacheLookup rest oid

/-- `enrich_with_orcid(orcid_id)`: cache hit short-circuits with no request;
otherwise one request is issued, a 200 result is extracted and cached, and
any failure returns `{}` without caching. -/
def enrich_with_orcid (net : OrcidNet) (cache : List (String × EnrichRet))
    (oid : String) : EnrichRet × List (String × EnrichRet) × Nat :=
  match cacheLookup cache oid with
  | some r => (r, cache, 0)
  | none =>
    match net with
    | OrcidNet.ok d => (extractOrcid d, (oid, extractOrcid d) :: cache, 1)
    | OrcidNet.fail => (EnrichRet.empty, cache, 1)

/-- C6: a cached identifier is answered with zero network requests and the
identical cached result; a successful first call stores its result, which
survives any later `enrich_with_orcid` call (so every later call with that
identifier is a zero-request cache hit); a failing call returns the empty
dict and stores nothing, leaving a later call with the same identifier to
issue a fresh network request. -/
theorem claim_C6 :
    (∀ (net : OrcidNet) (cache : List (String × EnrichRet)) (oid : String)
      (r : EnrichRet), cacheLookup cache oid = some r →
      enrich_with_orcid net cache oid = (r, cache, 0)) ∧
    (∀ (d : OrcidData) (cache : List (String × EnrichRet)) (oid : String),
      cacheLookup cache oid = none →
      enrich_with_orcid (OrcidNet.ok d) cache oid =
        (extractOrcid d, (oid, extractOrcid d) :: cache, 1)) ∧
    (∀ (cache : List (String × EnrichRet)) (oid : String),
      cacheLookup cache oid = none →
      enrich_with_orcid OrcidNet.fail cache oid =
        (EnrichRet.empty, cache, 1)) ∧
    (∀ (net : OrcidNet) (cache : List (String × EnrichRet)) (oid oidQ : String)
      (r : EnrichRet), cacheLookup cache oid = some r →
      cacheLookup (enrich_with_orcid net cache oidQ).2.1 oid = some r) := by
  refine ⟨?_, ?_, ?_, ?_⟩
  · intro net cache oid r h
    simp [enrich_with_orcid, h]
  · intro d cache oid h
    simp [enrich_with_orcid, h]
  · intro cache oid h
    simp [enrich_with_orcid, h]
  · intro net cache oid oidQ r h
    rcases hq : cacheLookup cache oidQ with _ | rq
    · rcases net with d | _
      · have hne : oidQ ≠ oid := fun he => by rw [he, h] at hq; cases hq
        simp [enrich_with_orcid, hq, cacheLookup, hne, h]
      · simp [enrich_with_orcid, hq, h]
    · simp [enrich_with_orcid, hq, h]

theorem claim_C6_witness :
    cacheLookup [("0000-0001", EnrichRet.found (some "a@b.c") none)]
        "0000-0001" = some (EnrichRet.found (some "a@b.c") none) ∧
    enrich_with_orcid OrcidNet.fail
        [("0000-0001", EnrichRet.found (some "a@b.c") none)] "0000-0001" =
      (EnrichRet.found (some "a@b.c") none,
        [("0000-0001", EnrichRet.found (some "a@b.c") none)], 0) :=
  ⟨by decide,
    claim_C6.1 OrcidNet.fail
      [("0000-0001", EnrichRet.found (some "a@b.c") none)] "0000-0001"
      (EnrichRet.found (some "a@b.c") none) (by decide)⟩

/-! ## The institution resolver: `get_institution_id`

String helpers below model the Python string operations structurally (so they
evaluate inside the kernel): `str.lower()` (ASCII case folding, which covers
the names in play), `str.strip()`, `str.replace(pat, rep)` for a non-empty
pattern, the `in` substring test, and `str.split('/')`. -/

/-- Does the first list occur as a leading segment of the second? -/
def listStarts : List Char → List Char → Bool
  | [], _ => true
  | _ :: _, [] => false
  | a :: as, b :: bs => a = b && listStarts as bs

/-- Contiguous-substring occurrence test (Python `needle in haystack`). -/
def listIsSub : List Char → List Char → Bool
  | needle, [] => needle.isEmpty
  | needle, c :: cs => listStarts needle (c :: cs) || listIsSub needle cs

/-- Python `needle in haystack` on strings. -/
def strIn (needle haystack : String) : Bool :=
  listIsSub needle.toList haystack.toList

/-- Python `str.lower()` (ASCII). -/
def pyLower (s : String) : String :=
  (s.toList.map Char.toLower).asString

/-- Python `str.strip()`. -/
def pyStrip (s : String) : String :=
  (((s.toList.dropWhile Char.isWhitespace).reverse.dropWhile
      Char.isWhitespace).reverse).asString

/-- Left-to-right, non-overlapping replacement of a non-empty `pattern`; the
fuel argument (instantiated with the input length) only makes the recursion
structural and is never exhausted. -/
def pyReplaceAux (pattern replacement : List Char) : Nat → List Char → List Char
  | _, [] => []
  | 0, s => s
  | fuel + 1, c :: cs =>
    if pattern ≠ [] ∧ listStarts pattern (c :: cs) then
      replacement ++
        pyReplaceAux pattern replacement fuel ((c :: cs).drop pattern.length)
    else c :: pyReplaceAux pattern replacement fuel cs

/-- Python `s.replace(pattern, replacement)` (for the non-empty pattern the
code uses). -/
def pyReplace (s pattern replacement : String) : String :=
  (pyReplaceAux pattern.toList replacement.toList s.toList.length s.toList).asString

/-- Python `str.split(sep)` for a single-character separator, keeping empty
pieces (always returns a non-empty list). -/
def splitChar (sep : Char) : List Char → List (List Char)
  | [] => [[]]
  | c :: cs =>
    match splitChar sep cs with
    | [] => [[]]
    | t :: ts => if c = sep then [] :: t :: ts else (c :: t) :: ts

example : pyReplace "Example University" "University" "" = "Example " := by decide
example : pyStrip "Example " = "Example" := by decide
example : (splitChar '/' "https://x.org/I7".toList).map List.asString =
    ["https:", "", "x.org", "I7"] := by decide

/-- One entry of an institutions-search `results` page.  The code reads
`institution['id']` unconditionally (an entry without an id would raise
`KeyError`), and `institution.get('display_name', '')`. -/
structure Inst where
  id : String
  display_name : Option String
deriving DecidableEq

/-- The case-insensitive two-way containment test of `get_institution_id`:
the queried institution name occurs in the candidate's display name, or
conversely. -/
def matchesName (institution_name : String) (inst : Inst) : Bool :=
  let instName := pyLower (inst.display_name.getD "")
  strIn (pyLower institution_name) instName ||
    strIn instName (pyLower institution_name)

/-- `institution['id'].split('/')[-1] if '/' in institution['id'] else
institution['id']`. -/
def extractInstId (inst : Inst) : String :=
  if inst.id.toList.contains '/' then
    ((splitChar '/' inst.id.toList).getLastD []).asString
  else inst.id

/-- Candidate selection within a non-empty results page: the first candidate
passing `matchesName`, else the first (highest-relevance) result. -/
def selectInstitution (institution_name : String) : List Inst → String
  | [] => ""
  | r :: rs =>
    match (r :: rs).find? (matchesName institution_name) with
    | some i => extractInstId i
    | none => extractInstId r

/-- The `search_terms` list: the name verbatim, the name with `"University"`
removed (stripped), and the first whitespace token.  Building it evaluates
`institution_name.split()[0]`, which raises `IndexError` (modelled as `none`)
when the split is empty. -/
def searchTermsOf (institution_name : String) : Option (List String) :=
  match pySplit institution_name with
  | [] => none
  | t :: _ =>
    some [institution_name,
      pyStrip (pyReplace institution_name "University" ""), t]

/-- Is an API answer a page with at least one result?  (`data and
data.get('results')` truthy: the request did not fail and the results list is
non-empty.) -/
def pageNonempty : Option (List Inst) → Bool
  | some (_ :: _) => true
  | some [] => false
  | none => false

/-- The search-term loop of `get_institution_id`, also recording the terms
actually queried, in order.  `api` maps a search term to the outcome of
`make_api_request` on its URL: `none` for a failed request, otherwise the
`results` list (an absent `results` key maps to `[]`). -/
def institutionLoop (api : String → Option (List Inst)) (name : String) :
    List String → Option String × List String
  | [] => (none, [])
  | t :: ts =>
    match api t with
    | some (r :: rs) => (some (selectInstitution name (r :: rs)), [t])
    | some [] =>
      let p := institutionLoop api name ts
      (p.1, t :: p.2)
    | none =>
      let p := institutionLoop api name ts
      (p.1, t :: p.2)

/-- `get_institution_id(institution_name)`, returning the resolved id (or
`None`) together with the trace of search terms queried; `Except.error ()`
models the `IndexError` on an all-whitespace name. -/
def get_institution_id_traced (api : String → Option (List Inst))
    (name : String) : Except Unit (Option String × List String) :=
  match searchTermsOf name with
  | none => Except.error ()
  | some terms => Except.ok (institutionLoop api name terms)

/-- `get_institution_id(institution_name)`. -/
def get_institution_id (api : String → Option (List Inst)) (name : String) :
    Except Unit (Option String) :=
  (get_institution_id_traced api name).map Prod.fst

/-! ### Resolver lemmas -/

theorem institutionLoop_all_empty (api : String → Option (List Inst))
    (name : String) :
    ∀ ts, (∀ t ∈ ts, pageNonempty (api t) = false) →
      institutionLoop api name ts = (none, ts) := by
  intro ts
  induction ts with
  | nil => intro _; rfl
  | cons t ts ih =>
    intro h
    have ht := h t (List.mem_cons_self t ts)
    have hrest := fun u hu => h u (List.mem_cons_of_mem t hu)
    rcases hap : api t with _ | page
    · simp [institutionLoop, hap, ih hrest]
    · rcases page with _ | ⟨r, rs⟩
      · simp [institutionLoop, hap, ih hrest]
      · rw [hap] at ht
        simp [pageNonempty] at ht

theorem institutionLoop_first_hit (api : String → Option (List Inst))
    (name : String) :
    ∀ pre t post page, (∀ u ∈ pre, pageNonempty (api u) = false) →
      api t = some page → page ≠ [] →
      institutionLoop api name (pre ++ t :: post) =
        (some (selectInstitution name page), pre ++ [t]) := by
  intro pre
  induction pre with
  | nil =>
    intro t post page _ hap hne
    rcases page with _ | ⟨r, rs⟩
    · exact absurd rfl hne
    · simp [institutionLoop, hap]
  | cons u pre ih =>
    intro t post page h hap hne
    have hu := h u (List.mem_cons_self u pre)
    have hrest := fun v hv => h v (List.mem_cons_of_mem u hv)
    rcases hau : api u with _ | upage
    · simp [institutionLoop, hau, ih t post page hrest hap hne]
    · rcases upage with _ | ⟨r, rs⟩
      · simp [institutionLoop, hau, ih t post page hrest hap hne]
      · rw [hau] at hu
        simp [pageNonempty] at hu

theorem institutionLoop_none (api : String → Option (List Inst))
    (name : String) :
    ∀ ts log, institutionLoop api name ts = (none, log) →
      ∀ t ∈ ts, pageNonempty (api t) = false := by
  intro ts
  induction ts with
  | nil => intro log _ t ht; cases ht
  | cons u ts ih =>
    intro log hloop t ht
    rcases List.mem_cons.mp ht with rfl | ht
    · rcases hau : api t with _ | upage
      · simp [pageNonempty]
      · rcases upage with _ | ⟨r, rs⟩
        · simp [pageNonempty]
        · simp only [institutionLoop, hau] at hloop
          simp at hloop
    · rcases hau : api u with _ | upage
      · simp only [institutionLoop, hau] at hloop
        rw [Prod.mk.injEq] at hloop
        exact ih (institutionLoop api name ts).2
          (Prod.ext_iff.mpr ⟨hloop.1, rfl⟩) t ht
      · rcases upage with _ | ⟨r, rs⟩
        · simp only [institutionLoop, hau] at hloop
          rw [Prod.mk.injEq] at hloop
          exact ih (institutionLoop api name ts).2
            (Prod.ext_iff.mpr ⟨hloop.1, rfl⟩) t ht
        · simp only [institutionLoop, hau] at hloop
          simp at hloop

theorem wsTokensAux_eq_nil : ∀ (cs acc : List Char),
    wsTokensAux acc cs = [] ↔ (acc = [] ∧ cs.all Char.isWhitespace = true) := by
  intro cs
  induction cs with
  | nil =>
    intro acc
    rcases acc with _ | ⟨c, cs'⟩
    · simp [wsTokensAux]
    · simp [wsTokensAux]
  | cons c cs ih =>
    intro acc
    by_cases hw : c.isWhitespace
    · rcases acc with _ | ⟨a, acc'⟩
      · simp [wsTokensAux, hw, ih]
      · simp [wsTokensAux, hw]
    · simp [wsTokensAux, hw, ih]

theorem pySplit_eq_nil (s : String) :
    pySplit s = [] ↔ s.toList.all Char.isWhitespace = true := by
  rw [pySplit, List.map_eq_nil_iff, wsTokensAux_eq_nil]
  simp

/-! ### Claims about the institution resolver -/

/-- The conclusion of C3 for a resolver run whose `search_terms` list is
`terms`: (i) if all terms before `t` yield empty pages and `t` yields a
non-empty page, the resolver queries exactly the terms through `t` and
returns the selection from `t`'s page; (ii) if every term yields an empty
page the resolver queries all terms and returns `None`; (iii) `None` is
returned only when every term yielded an empty page; (iv)/(v) the selection
from a page is the first two-way case-insensitive substring match if any,
else the first result. -/
def C3Concl (api : String → Option (List Inst)) (name : String)
    (terms : List String) : Prop :=
  (∀ pre t post page, terms = pre ++ t :: post →
    (∀ u ∈ pre, pageNonempty (api u) = false) →
    api t = some page → page ≠ [] →
    get_institution_id_traced api name =
      Except.ok (some (selectInstitution name page), pre ++ [t])) ∧
  ((∀ t ∈ terms, pageNonempty (api t) = false) →
    get_institution_id_traced api name = Except.ok (none, terms)) ∧
  (∀ res log, get_institution_id_traced api name = Except.ok (res, log) →
    res = none → ∀ t ∈ terms, pageNonempty (api t) = false) ∧
  (∀ r rs i, (r :: rs).find? (matchesName name) = some i →
    selectInstitution name (r :: rs) = extractInstId i) ∧
  (∀ r rs, (r :: rs).find? (matchesName name) = none →
    selectInstitution name (r :: rs) = extractInstId r)

/-- C3: `get_institution_id` tries its search terms in order, stops at the
first term whose query returns any results (from whose page it selects a
two-way substring match if one exists, else the first result), and returns
`None` only when every search term yields zero results. -/
theorem claim_C3 (api : String → Option (List Inst)) (name : String)
    (terms : List String) (h : searchTermsOf name = some terms) :
    C3Concl api name terms := by
  refine ⟨?_, ?_, ?_, ?_, ?_⟩
  · intro pre t post page hterms hpre hap hne
    simp only [get_institution_id_traced, h, hterms]
    rw [institutionLoop_first_hit api name pre t post page hpre hap hne]
  · intro hempty
    simp only [get_institution_id_traced, h]
    rw [institutionLoop_all_empty api name terms hempty]
  · intro res log htraced hres t ht
    simp only [get_institution_id_traced, h] at htraced
    have heq : institutionLoop api name terms = (res, log) := by
      injection htraced
    rw [hres] at heq
    exact institutionLoop_none api name terms log heq t ht
  · intro r rs i hfind
    simp [selectInstitution, hfind]
  · intro r rs hfind
    simp [selectInstitution, hfind]

/-- A concrete institutions-search candidate. -/
def instEx : Inst := ⟨"https://openalex.org/I123", some "Example College"⟩

/-- Concrete search-term oracle: the verbatim name yields an empty page,
the refined term yields one candidate, nothing else answers. -/
def instApiEx : String → Option (List Inst) := fun t =>
  if t = "Example University" then some []
  else if t = "Example" then some [instEx]
  else none

example : searchTermsOf "Example University" =
    some ["Example University", "Example", "Example"] := by decide

example : get_institution_id_traced instApiEx "Example University" =
    Except.ok (some "I123", ["Example University", "Example"]) := by rfl

theorem claim_C3_witness :
    C3Concl instApiEx "Example University"
      ["Example University", "Example", "Example"] :=
  claim_C3 instApiEx "Example University"
    ["Example University", "Example", "Example"] (by decide)

/-- C10: `get_institution_id` raises (an `IndexError` from
`institution_name.split()[0]`, before any query is made) exactly when the
institution name has no non-whitespace character; on any other name it
returns normally. -/
theorem claim_C10 (api : String → Option (List Inst)) (name : String) :
    get_institution_id api name = Except.error () ↔
      name.toList.all Char.isWhitespace = true := by
  rw [← pySplit_eq_nil]
  unfold get_institution_id get_institution_id_traced searchTermsOf
  rcases hsp : pySplit name with _ | ⟨t, ts⟩
  · simp [Except.map]
  · simp [Except.map]

example : get_institution_id instApiEx "" = Except.error () := by rfl

example : get_institution_id instApiEx " \t " = Except.error () := by rfl

/-! ## The author discovery engine

JSON payload shapes for the works search, the direct author search, and the
per-author detail lookup.  Enrichment inside these functions is modelled by a
deterministic oracle `enrich : String → EnrichRet` (ORCID id to result dict);
the stateful cache realising it is `enrich_with_orcid` above.  Enrichment
values only populate the `Email`/`Department` fields of records. -/

/-- A `last_known_institution` object. -/
structure LKI where
  display_name : Option String
  type : Option String
deriving DecidableEq

/-- `authorship['author']`. -/
structure AuthorObj where
  id : Option String
  display_name : Option String
  orcid : Option String
deriving DecidableEq

/-- One entry of `authorship['institutions']`. -/
structure AuthorshipInst where
  id : Option String
  display_name : Option String
deriving DecidableEq

/-- One entry of a work's `authorships`; `author = none` models an absent or
empty author object (both falsy). -/
structure Authorship where
  author : Option AuthorObj
  institutions : List AuthorshipInst
deriving DecidableEq

/-- One work of a works-search page. -/
structure Work where
  authorships : List Authorship
  doi : Option String
  title : Option String
  id : Option String
deriving DecidableEq

/-- Body of the author detail lookup. -/
structure AuthorDetail where
  last_known_institution : Option LKI
  works_count : Option Int
  cited_by_count : Option Int
deriving DecidableEq

/-- One entry of a direct author-search page. -/
structure DirectAuthor where
  id : Option String
  display_name : Option String
  last_known_institution : Option LKI
  orcid : Option String
  works_count : Option Int
  cited_by_count : Option Int
deriving DecidableEq

/-- The author-record dict assembled by the discovery functions.  Direct
(author-centric) records carry no `Recent_Work_Title`/`DOI` keys, modelled as
`none`. -/
structure AuthorRecord where
  OpenAlex_ID : Option String
  Full_Name : Option String
  Institution : String
  Email : Option String
  Department : Option String
  ORCID : Option String
  Matched_Keyword : String
  Works_Count : Int
  Cited_By_Count : Int
  Recent_Work_Title : Option String
  DOI : Option String
  Paper_URL : Option String
deriving DecidableEq

/-- Hexadecimal digit (uppercase, as `urllib.parse.quote` emits). -/
def hexDigitChar (n : Nat) : Char :=
  if n < 10 then Char.ofNat ('0'.toNat + n) else Char.ofNat ('A'.toNat + n - 10)

/-- `urllib.parse.quote` on one character: ASCII alphanumerics, `_.-~` and
the default-safe `/` pass through, everything else is percent-encoded by
UTF-8 byte. -/
def quoteChar (c : Char) : List Char :=
  if c.isAlphanum || c = '_' || c = '.' || c = '-' || c = '~' || c = '/' then [c]
  else (String.utf8EncodeChar c).flatMap (fun b =>
    ['%', hexDigitChar (b.toNat / 16), hexDigitChar (b.toNat % 16)])

/-- `urllib.parse.quote(s)`. -/
def pyQuote (s : String) : String :=
  (s.toList.flatMap quoteChar).asString

example : pyQuote "heat transfer" = "heat%20transfer" := by rfl

/-- The authorship-level institution name for a new record: the first
authorship institution whose truthy id contains `"I<institution_id>"`,
else the university name as given. -/
def worksAuthorInstitution (instId uniName : String) (aship : Authorship) :
    String :=
  match aship.institutions.find? (fun i =>
      pyTruthyStr i.id && strIn ("I" ++ instId) (i.id.getD "")) with
  | some i => i.display_name.getD uniName
  | none => uniName

/-- Paper reference resolution: DOI URL if the work has a truthy `doi`, else
a scholar-search URL from a truthy title, else the work id rewritten into
the canonical work-URL form. -/
def workPaperUrl (w : Work) : String :=
  if pyTruthyStr w.doi then "https://doi.org/" ++ w.doi.getD ""
  else if w.title.getD "" ≠ "" then
    "https://scholar.google.com/scholar?q=" ++ pyQuote (w.title.getD "")
  else
    pyReplace (w.id.getD "") "https://openalex.org/" "https://openalex.org/works/"

/-- The record inserted into `authors_dict` for a first-seen author id. -/
def mkWorksRecord (enrich : String → EnrichRet)
    (keyword instId uniName : String) (w : Work) (aship : Authorship)
    (a : AuthorObj) (aid : String) : AuthorRecord :=
  let orcid := a.orcid
  let enriched := if pyTruthyStr orcid then enrich (orcid.getD "")
    else EnrichRet.empty
  { OpenAlex_ID := some aid
    Full_Name := some (a.display_name.getD "Unknown")
    Institution := worksAuthorInstitution instId uniName aship
    Email := enriched.getEmail
    Department := enriched.getDepartment
    ORCID := orcid
    Matched_Keyword := keyword
    Works_Count := 0
    Cited_By_Count := 0
    Recent_Work_Title := some (w.title.getD "Unknown")
    DOI := w.doi
    Paper_URL := some (workPaperUrl w) }

/-- Processing of one (work, authorship) pair by the dict-building loop:
skip absent/falsy authors and falsy author ids, insert first-seen ids at the
end of the (insertion-ordered) dict. -/
def dictStep (enrich : String → EnrichRet) (keyword instId uniName : String)
    (d : List (String × AuthorRecord)) (p : Work × Authorship) :
    List (String × AuthorRecord) :=
  match p.2.author with
  | none => d
  | some a =>
    match a.id with
    | none => d
    | some aid =>
      if aid = "" then d
      else if aid ∈ d.map Prod.fst then d
      else d ++ [(aid, mkWorksRecord enrich keyword instId uniName p.1 p.2 a aid)]

/-- The nested `for work / for authorship` iteration order, flattened. -/
def workPairs (works : List Work) : List (Work × Authorship) :=
  works.flatMap (fun w => w.authorships.map (fun aship => (w, aship)))

/-- The `authors_dict` built by `find_authors_by_works`, as an
insertion-ordered association list. -/
def authorsDictOfWorks (enrich : String → EnrichRet)
    (keyword instId uniName : String) (works : List Work) :
    List (String × AuthorRecord) :=
  (workPairs works).foldl (dictStep enrich keyword instId uniName) []

/-- The per-author detail pass: on a truthy detail response, overwrite the
institution when the detail's last-known institution has a truthy display
name, and backfill `works_count`/`cited_by_count`. -/
def applyDetail (detail : String → Option AuthorDetail)
    (kv : String × AuthorRecord) : AuthorRecord :=
  match detail kv.1 with
  | none => kv.2
  | some dd =>
    let r1 :=
      match dd.last_known_institution with
      | some lki =>
        if pyTruthyStr lki.display_name then
          { kv.2 with Institution := lki.display_name.getD "" }
        else kv.2
      | none => kv.2
    { r1 with
      Works_Count := dd.works_count.getD 0
      Cited_By_Count := dd.cited_by_count.getD 0 }

/-- `find_authors_by_works(keyword, institution_id, university_name)`:
empty on a failed request or an empty/absent results list; otherwise the
detail-enriched records of the first 20 unique author ids, in first-seen
order.  `worksData` is the outcome of `make_api_request` on the works-search
URL, `detail` the oracle for the per-author detail lookups. -/
def find_authors_by_works (worksData : Option (List Work))
    (detail : String → Option AuthorDetail) (enrich : String → EnrichRet)
    (keyword instId uniName : String) : List AuthorRecord :=
  match worksData with
  | none => []
  | some works =>
    match works with
    | [] => []
    | _ :: _ =>
      ((authorsDictOfWorks enrich keyword instId uniName works).take 20).map
        (applyDetail detail)

/-- One record of `find_authors_direct`, straight from the author summary. -/
def mkDirectRecord (enrich : String → EnrichRet) (keyword uniName : String)
    (a : DirectAuthor) : AuthorRecord :=
  let instName :=
    match a.last_known_institution with
    | some lki =>
      if pyTruthyStr lki.display_name then lki.display_name.getD ""
      else uniName
    | none => uniName
  let orcid := a.orcid
  let enriched := if pyTruthyStr orcid then enrich (orcid.getD "")
    else EnrichRet.empty
  let lkiType := a.last_known_institution.bind LKI.type
  { OpenAlex_ID := a.id
    Full_Name := a.display_name
    Institution := instName
    Email := enriched.getEmail
    Department :=
      if pyTruthyStr enriched.getDepartment then enriched.getDepartment
      else lkiType
    ORCID := orcid
    Matched_Keyword := keyword
    Works_Count := a.works_count.getD 0
    Cited_By_Count := a.cited_by_count.getD 0
    Recent_Work_Title := none
    DOI := none
    Paper_URL := none }

/-- `find_authors_direct(keyword, institution_id, university_name)`:
empty on a failed request or an empty results page, else one record per page
entry (no detail pass, no paper context). -/
def find_authors_direct (directData : Option (List DirectAuthor))
    (enrich : String → EnrichRet) (keyword uniName : String) :
    List AuthorRecord :=
  match directData with
  | none => []
  | some auths =>
    match auths with
    | [] => []
    | _ :: _ => auths.map (mkDirectRecord enrich keyword uniName)

/-- The oracles a discovery run draws on: institutions-search pages per
(university, search term), works pages and direct-author pages per
(institution id, keyword), author details per author id, and enrichment per
ORCID id. -/
structure DiscoveryEnv where
  instPage : String → String → Option (List Inst)
  works : String → String → Option (List Work)
  direct : String → String → Option (List DirectAuthor)
  detail : String → Option AuthorDetail
  enrich : String → EnrichRet

/-- Strategy A: the work-centric search of `find_authors`, drawing its works
page and detail lookups from the environment. -/
def stratA (env : DiscoveryEnv) (keyword instId uniName : String) :
    List AuthorRecord :=
  find_authors_by_works (env.works instId keyword) env.detail env.enrich
    keyword instId uniName

/-- Strategy B: the direct author-centric search of `find_authors`. -/
def stratB (env : DiscoveryEnv) (keyword instId uniName : String) :
    List AuthorRecord :=
  find_authors_direct (env.direct instId keyword) env.enrich keyword uniName

/-- `find_authors(keyword, institution_id, university_name)`: Strategy A
(work-centric) first; if it yields fewer than 5 authors, Strategy B's records
whose id is not among Strategy A's ids are appended (the `existing_ids` set
is computed once, before the append loop).  The boolean reports whether the
direct search ran. -/
def find_authors (env : DiscoveryEnv) (keyword instId uniName : String) :
    List AuthorRecord × Bool :=
  let A := stratA env keyword instId uniName
  if A.length < 5 then
    let B := stratB env keyword instId uniName
    (A ++ B.filter (fun b =>
      decide (b.OpenAlex_ID ∉ A.map AuthorRecord.OpenAlex_ID)), true)
  else (A, false)

/-! ### Lemmas about the works strategy -/

/-- The detail pass never changes a record's id. -/
theorem applyDetail_id (detail : String → Option AuthorDetail)
    (kv : String × AuthorRecord) :
    (applyDetail detail kv).OpenAlex_ID = kv.2.OpenAlex_ID := by
  rcases hd : detail kv.1 with _ | dd
  · simp [applyDetail, hd]
  · rcases hl : dd.last_known_institution with _ | lki
    · simp [applyDetail, hd, hl]
    · by_cases h : pyTruthyStr lki.display_name <;>
        simp [applyDetail, hd, hl, h]

/-- Invariant of the `authors_dict` under construction: keys are distinct and
every stored record's id is its key. -/
def DictInv (d : List (String × AuthorRecord)) : Prop :=
  (d.map Prod.fst).Nodup ∧ ∀ kv ∈ d, kv.2.OpenAlex_ID = some kv.1

theorem dictStep_inv (enrich : String → EnrichRet)
    (keyword instId uniName : String) (d : List (String × AuthorRecord))
    (p : Work × Authorship) (h : DictInv d) :
    DictInv (dictStep enrich keyword instId uniName d p) := by
  rcases hau : p.2.author with _ | a
  · simpa [dictStep, hau] using h
  · rcases hai : a.id with _ | aid
    · simpa [dictStep, hau, hai] using h
    · by_cases h1 : aid = ""
      · simpa [dictStep, hau, hai, h1] using h
      · by_cases h2 : aid ∈ d.map Prod.fst
        · simpa [dictStep, hau, hai, h1, h2] using h
        · have hstep : dictStep enrich keyword instId uniName d p =
              d ++ [(aid,
                mkWorksRecord enrich keyword instId uniName p.1 p.2 a aid)] := by
            simp [dictStep, hau, hai, h1, h2]
          rw [hstep]
          refine ⟨?_, ?_⟩
          · rw [List.map_append, List.nodup_append]
            exact ⟨h.1, List.nodup_singleton aid, by
              intro x hx hxs
              simp at hxs
              subst hxs
              exact h2 hx⟩
          · intro kv hkv
            rcases List.mem_append.mp hkv with hin | hnew
            · exact h.2 kv hin
            · rw [List.mem_singleton] at hnew
              subst hnew
              rfl

theorem authorsDict_inv (enrich : String → EnrichRet)
    (keyword instId uniName : String) (works : List Work) :
    DictInv (authorsDictOfWorks enrich keyword instId uniName works) := by
  have haux : ∀ (ps : List (Work × Authorship))
      (d : List (String × AuthorRecord)), DictInv d →
      DictInv (ps.foldl (dictStep enrich keyword instId uniName) d) := by
    intro ps
    induction ps with
    | nil => intro d hd; exact hd
    | cons p ps ih =>
      intro d hd
      exact ih _ (dictStep_inv enrich keyword instId uniName d p hd)
  exact haux (workPairs works) [] ⟨List.nodup_nil, fun kv hkv => absurd hkv
    (List.not_mem_nil kv)⟩

/-- The ids of the works-strategy records are exactly the first 20 keys of
the `authors_dict`, in first-seen order. -/
theorem find_authors_by_works_ids (worksData : Option (List Work))
    (detail : String → Option AuthorDetail) (enrich : String → EnrichRet)
    (keyword instId uniName : String) :
    (find_authors_by_works worksData detail enrich keyword instId
        uniName).map AuthorRecord.OpenAlex_ID =
      ((authorsDictOfWorks enrich keyword instId uniName
        (worksData.getD [])).map (fun p => some p.1)).take 20 := by
  rcases worksData with _ | works
  · simp [find_authors_by_works, authorsDictOfWorks, workPairs]
  · rcases works with _ | ⟨w, ws⟩
    · simp [find_authors_by_works, authorsDictOfWorks, workPairs]
    · have hinv := authorsDict_inv enrich keyword instId uniName (w :: ws)
      simp only [find_authors_by_works, Option.getD_some, List.map_map]
      rw [← List.map_take]
      apply List.map_congr_left
      intro kv hkv
      have hmem : kv ∈ authorsDictOfWorks enrich keyword instId uniName
          (w :: ws) := List.mem_of_mem_take hkv
      simp only [Function.comp_apply]
      rw [applyDetail_id detail kv, hinv.2 kv hmem]

/-- C9: the works strategy returns at most 20 records; exactly the authors
beyond the first 20 unique ids encountered are omitted from the returned
list (the detail-lookup cap also caps the output size). -/
theorem claim_C9 (worksData : Option (List Work))
    (detail : String → Option AuthorDetail) (enrich : String → EnrichRet)
    (keyword instId uniName : String) :
    (find_authors_by_works worksData detail enrich keyword instId
        uniName).length ≤ 20 ∧
    (find_authors_by_works worksData detail enrich keyword instId
        uniName).length =
      min (authorsDictOfWorks enrich keyword instId uniName
        (worksData.getD [])).length 20 ∧
    (find_authors_by_works worksData detail enrich keyword instId
        uniName).map AuthorRecord.OpenAlex_ID =
      ((authorsDictOfWorks enrich keyword instId uniName
        (worksData.getD [])).map (fun p => some p.1)).take 20 := by
  have hids := find_authors_by_works_ids worksData detail enrich keyword
    instId uniName
  have hlen : (find_authors_by_works worksData detail enrich keyword instId
      uniName).length =
      min (authorsDictOfWorks enrich keyword instId uniName
        (worksData.getD [])).length 20 := by
    have hl := congrArg List.length hids
    simpa [List.length_take, Nat.min_comm] using hl
  exact ⟨by rw [hlen]; exact Nat.min_le_right _ _, hlen, hids⟩

/-- The works-strategy records carry pairwise distinct author ids. -/
theorem find_authors_by_works_ids_nodup (worksData : Option (List Work))
    (detail : String → Option AuthorDetail) (enrich : String → EnrichRet)
    (keyword instId uniName : String) :
    ((find_authors_by_works worksData detail enrich keyword instId
        uniName).map AuthorRecord.OpenAlex_ID).Nodup := by
  rw [find_authors_by_works_ids]
  apply List.Nodup.sublist (List.take_sublist _ _)
  have hinv := authorsDict_inv enrich keyword instId uniName
    (worksData.getD [])
  have hmm : (authorsDictOfWorks enrich keyword instId uniName
      (worksData.getD [])).map (fun p => some p.1) =
      ((authorsDictOfWorks enrich keyword instId uniName
        (worksData.getD [])).map Prod.fst).map some := by
    rw [List.map_map]
    rfl
  rw [hmm]
  exact hinv.1.map (Option.some_injective String)

theorem filter_ids_length (xs : List (Option String))
    (l : List AuthorRecord) :
    (l.filter (fun b => decide (b.OpenAlex_ID ∉ xs))).length =
      ((l.map AuthorRecord.OpenAlex_ID).filter
        (fun y => decide (y ∉ xs))).length := by
  induction l with
  | nil => rfl
  | cons a l ih =>
    rw [List.map_cons, List.filter_cons, List.filter_cons]
    by_cases h : a.OpenAlex_ID ∉ xs
    · rw [if_pos (decide_eq_true h), if_pos (decide_eq_true h),
        List.length_cons, List.length_cons, ih]
    · rw [if_neg (by simpa using h), if_neg (by simpa using h)]
      exact ih

/-- Appending to `xs` those elements of `ys` not already in `xs` produces as
many elements as the two lists have distinct elements together, provided each
list is itself duplicate-free. -/
theorem union_dedup_length (xs ys : List (Option String))
    (hx : xs.Nodup) (hy : ys.Nodup) :
    (xs ++ ys.filter (fun y => decide (y ∉ xs))).length =
      (xs ++ ys).dedup.length := by
  have hnd : (xs ++ ys.filter (fun y => decide (y ∉ xs))).Nodup := by
    rw [List.nodup_append]
    refine ⟨hx, hy.filter _, ?_⟩
    intro a ha haf
    have h2 := (List.mem_filter.mp haf).2
    simp at h2
    exact h2 ha
  have htf : (xs ++ ys.filter (fun y => decide (y ∉ xs))).toFinset =
      (xs ++ ys).toFinset := by
    ext a
    simp [List.mem_filter]
    tauto
  calc (xs ++ ys.filter (fun y => decide (y ∉ xs))).length
      = (xs ++ ys.filter (fun y => decide (y ∉ xs))).dedup.length := by
        rw [hnd.dedup]
    _ = (xs ++ ys.filter (fun y => decide (y ∉ xs))).toFinset.card :=
        (List.card_toFinset _).symm
    _ = (xs ++ ys).toFinset.card := by rw [htf]
    _ = (xs ++ ys).dedup.length := List.card_toFinset _

/-- Amended C2: `find_authors` runs the work-centric strategy first and runs
the direct search iff that yielded fewer than 5 authors, in which case
exactly the direct records whose id is not among the work-centric ids are
appended, after all work-centric records; the final count equals the size of
the union of the two strategies' author-id sets whenever the direct page
carries no duplicate ids (the unamended universal claim fails because the
`existing_ids` set is never updated during the append loop). -/
theorem claim_C2 (env : DiscoveryEnv) (keyword instId uniName : String) :
    ((find_authors env keyword instId uniName).2 = true ↔
      (stratA env keyword instId uniName).length < 5) ∧
    ((stratA env keyword instId uniName).length < 5 →
      (find_authors env keyword instId uniName).1 =
        stratA env keyword instId uniName ++
          (stratB env keyword instId uniName).filter (fun b =>
            decide (b.OpenAlex_ID ∉
              (stratA env keyword instId uniName).map
                AuthorRecord.OpenAlex_ID))) ∧
    (¬ (stratA env keyword instId uniName).length < 5 →
      (find_authors env keyword instId uniName).1 =
        stratA env keyword instId uniName) ∧
    ((stratA env keyword instId uniName).length < 5 →
      ((stratB env keyword instId uniName).map
        AuthorRecord.OpenAlex_ID).Nodup →
      ((find_authors env keyword instId uniName).1).length =
        ((stratA env keyword instId uniName).map AuthorRecord.OpenAlex_ID ++
          (stratB env keyword instId uniName).map
            AuthorRecord.OpenAlex_ID).dedup.length) := by
  refine ⟨?_, ?_, ?_, ?_⟩
  · by_cases h5 : (stratA env keyword instId uniName).length < 5 <;>
      simp [find_authors, h5]
  · intro h5
    simp [find_authors, h5]
  · intro h5
    simp [find_authors, h5]
  · intro h5 hB
    have hres : (find_authors env keyword instId uniName).1 =
        stratA env keyword instId uniName ++
          (stratB env keyword instId uniName).filter (fun b =>
            decide (b.OpenAlex_ID ∉
              (stratA env keyword instId uniName).map
                AuthorRecord.OpenAlex_ID)) := by
      simp [find_authors, h5]
    have hAn : ((stratA env keyword instId uniName).map
        AuthorRecord.OpenAlex_ID).Nodup :=
      find_authors_by_works_ids_nodup (env.works instId keyword) env.detail
        env.enrich keyword instId uniName
    rw [hres, List.length_append]
    calc (stratA env keyword instId uniName).length +
          ((stratB env keyword instId uniName).filter (fun b =>
            decide (b.OpenAlex_ID ∉
              (stratA env keyword instId uniName).map
                AuthorRecord.OpenAlex_ID))).length
        = ((stratA env keyword instId uniName).map
            AuthorRecord.OpenAlex_ID).length +
          (((stratB env keyword instId uniName).map
            AuthorRecord.OpenAlex_ID).filter (fun y =>
              decide (y ∉ (stratA env keyword instId uniName).map
                AuthorRecord.OpenAlex_ID))).length := by
          rw [List.length_map]
          congr 1
          exact filter_ids_length _ _
      _ = ((stratA env keyword instId uniName).map AuthorRecord.OpenAlex_ID ++
            ((stratB env keyword instId uniName).map
              AuthorRecord.OpenAlex_ID).filter (fun y =>
                decide (y ∉ (stratA env keyword instId uniName).map
                  AuthorRecord.OpenAlex_ID))).length :=
          (List.length_append _ _).symm
      _ = ((stratA env keyword instId uniName).map AuthorRecord.OpenAlex_ID ++
            (stratB env keyword instId uniName).map
              AuthorRecord.OpenAlex_ID).dedup.length :=
          union_dedup_length _ _ hAn hB

/-- A direct-search page entry. -/
def mkDA (i : String) : DirectAuthor :=
  ⟨some i, some "Dup Author", none, none, none, none⟩

/-- Environment whose direct author search returns the same author twice
(everything else empty). -/
def envC2 : DiscoveryEnv :=
  ⟨fun _ _ => none, fun _ _ => none,
    fun _ _ => some [mkDA "https://openalex.org/A1", mkDA "https://openalex.org/A1"],
    fun _ => none, fun _ => EnrichRet.empty⟩

/-- C2 as stated is false at this input: with an empty work-centric result
and a direct page repeating one author id, both copies are appended (the
`existing_ids` set is computed once and never updated), so the final count is
2 while the union of the two strategies' author-id sets has size 1. -/
theorem claim_C2_counterexample :
    ((find_authors envC2 "cooling" "123" "X U").1).length = 2 ∧
    ((stratA envC2 "cooling" "123" "X U").map AuthorRecord.OpenAlex_ID ++
      (stratB envC2 "cooling" "123" "X U").map
        AuthorRecord.OpenAlex_ID).dedup.length = 1 := by
  constructor
  · rfl
  · rfl

/-- Environment whose direct author search returns two distinct authors. -/
def envC2W : DiscoveryEnv :=
  ⟨fun _ _ => none, fun _ _ => none,
    fun _ _ => some [mkDA "https://openalex.org/A1", mkDA "https://openalex.org/A2"],
    fun _ => none, fun _ => EnrichRet.empty⟩

theorem claim_C2_witness :
    ((find_authors envC2W "kw" "1" "U").1).length =
      ((stratA envC2W "kw" "1" "U").map AuthorRecord.OpenAlex_ID ++
        (stratB envC2W "kw" "1" "U").map
          AuthorRecord.OpenAlex_ID).dedup.length :=
  (claim_C2 envC2W "kw" "1" "U").2.2.2 (by decide) (by decide)

/-! ## The discovery orchestrator: `find_researchers_with_api` -/

/-- Python dict assignment `institution_data[uni_name] = uni_id`: an existing
key keeps its position and gets the new value, a new key is appended. -/
def dictUpsert (d : List (String × String)) (k v : String) :
    List (String × String) :=
  if k ∈ d.map Prod.fst then d.map (fun p => if p.1 = k then (k, v) else p)
  else d ++ [(k, v)]

/-- The institution-resolution loop: resolve each university name once and
keep it only when the resolved id is truthy (`if uni_id:` — both `None` and
the empty string are dropped; an empty string is reachable when the selected
candidate's id is `''` or ends in `'/'`); an `IndexError` from
`get_institution_id` propagates. -/
def resolveAux (env : DiscoveryEnv) (acc : List (String × String)) :
    List String → Except Unit (List (String × String))
  | [] => Except.ok acc
  | u :: us =>
    match get_institution_id (env.instPage u) u with
    | Except.error e => Except.error e
    | Except.ok r =>
      if pyTruthyStr r then resolveAux env (dictUpsert acc u (r.getD "")) us
      else resolveAux env acc us

/-- The `institution_data` dict of `find_researchers_with_api`. -/
def resolveInstitutions (env : DiscoveryEnv) (universities : List String) :
    Except Unit (List (String × String)) :=
  resolveAux env [] universities

/-- `all_found_authors`: the full institutions-by-keywords cross product,
institutions outer, keywords inner, appending each call's records. -/
def allFoundAuthors (env : DiscoveryEnv) (instData : List (String × String))
    (keywords : List String) : List AuthorRecord :=
  instData.foldl (fun acc p =>
    keywords.foldl (fun acc2 kw => acc2 ++ (find_authors env kw p.2 p.1).1) acc)
    []

/-- `df.drop_duplicates(subset=['OpenAlex_ID'])` keeping the first
occurrence, with the seen-ids accumulator made explicit. -/
def dedupByIdAux (seen : List (Option String)) :
    List AuthorRecord → List AuthorRecord
  | [] => []
  | a :: rest =>
    if a.OpenAlex_ID ∈ seen then dedupByIdAux seen rest
    else a :: dedupByIdAux (a.OpenAlex_ID :: seen) rest

/-- Deduplication by author id, keeping first occurrences in order. -/
def drop_duplicates_by_id (l : List AuthorRecord) : List AuthorRecord :=
  dedupByIdAux [] l

/-- `find_researchers_with_api(universities, keywords)`: resolve
institutions, run the full cross product, return `None` when nothing was
found, else the collection deduplicated by author id. -/
def find_researchers_with_api (env : DiscoveryEnv)
    (universities keywords : List String) :
    Except Unit (Option (List AuthorRecord)) :=
  match resolveInstitutions env universities with
  | Except.error e => Except.error e
  | Except.ok instData =>
    if allFoundAuthors env instData keywords = [] then Except.ok none
    else Except.ok (some (drop_duplicates_by_id
      (allFoundAuthors env instData keywords)))

/-! ### Orchestrator lemmas -/

theorem get_institution_id_ok (api : String → Option (List Inst))
    (name : String) (h : pySplit name ≠ []) :
    ∃ r, get_institution_id api name = Except.ok r := by
  rcases hsp : pySplit name with _ | ⟨t, ts⟩
  · exact absurd hsp h
  · simp only [get_institution_id, get_institution_id_traced, searchTermsOf,
      hsp]
    exact ⟨_, rfl⟩

theorem resolveAux_ok (env : DiscoveryEnv) :
    ∀ (us : List String) (acc : List (String × String)),
      (∀ u ∈ us, pySplit u ≠ []) →
      ∃ d, resolveAux env acc us = Except.ok d := by
  intro us
  induction us with
  | nil => intro acc _; exact ⟨acc, rfl⟩
  | cons u us ih =>
    intro acc h
    obtain ⟨r, hr⟩ := get_institution_id_ok (env.instPage u) u
      (h u (List.mem_cons_self u us))
    have hrest := fun v hv => h v (List.mem_cons_of_mem u hv)
    by_cases ht : pyTruthyStr r = true
    · obtain ⟨d, hd⟩ := ih (dictUpsert acc u (r.getD "")) hrest
      exact ⟨d, by simp only [resolveAux, hr]; rw [if_pos ht]; exact hd⟩
    · obtain ⟨d, hd⟩ := ih acc hrest
      exact ⟨d, by simp only [resolveAux, hr]; rw [if_neg ht]; exact hd⟩

theorem dedupByIdAux_filter (x : Option String) :
    ∀ (l : List AuthorRecord) (seen : List (Option String)),
      (dedupByIdAux seen l).filter (fun a => a.OpenAlex_ID == x) =
        if x ∈ seen then []
        else (l.filter (fun a => a.OpenAlex_ID == x)).take 1 := by
  intro l
  induction l with
  | nil =>
    intro seen
    by_cases hx : x ∈ seen <;> simp [dedupByIdAux, hx]
  | cons a rest ih =>
    intro seen
    simp only [dedupByIdAux]
    by_cases hmem : a.OpenAlex_ID ∈ seen
    · rw [if_pos hmem, ih seen]
      by_cases hx : x ∈ seen
      · simp [hx]
      · have hbeq : ¬ (a.OpenAlex_ID == x) = true := by
          intro hb
          exact hx (beq_iff_eq.mp hb ▸ hmem)
        simp [hx, List.filter_cons, hbeq]
    · rw [if_neg hmem]
      by_cases hax : a.OpenAlex_ID = x
      · have hxseen : x ∉ seen := fun hxs => hmem (hax ▸ hxs)
        simp [List.filter_cons, ih, hax, hxseen, List.mem_cons]
      · have hbeq : ¬ (a.OpenAlex_ID == x) = true := by
          intro hb
          exact hax (beq_iff_eq.mp hb)
        have hne : ¬ x = a.OpenAlex_ID := fun he => hax he.symm
        by_cases hx : x ∈ seen <;>
          simp [List.filter_cons, ih, hbeq, hx, List.mem_cons, hne]

/-! ### Claim about the orchestrator -/

/-- The conclusion of C4: institution resolution succeeds with some
`institution_data`, the orchestrator returns the empty-signal `None` exactly
when the cross product found zero authors and otherwise the
deduplicated collection, and for every author id the deduplicated collection
retains exactly the first matching record of the iteration-ordered
collection. -/
def C4Concl (env : DiscoveryEnv) (universities keywords : List String) :
    Prop :=
  ∃ instData, resolveInstitutions env universities = Except.ok instData ∧
    find_researchers_with_api env universities keywords =
      Except.ok (if allFoundAuthors env instData keywords = [] then none
        else some (drop_duplicates_by_id
          (allFoundAuthors env instData keywords))) ∧
    ∀ x : Option String,
      (drop_duplicates_by_id (allFoundAuthors env instData keywords)).filter
          (fun a => a.OpenAlex_ID == x) =
        ((allFoundAuthors env instData keywords).filter
          (fun a => a.OpenAlex_ID == x)).take 1

/-- C4: `find_researchers_with_api` returns `None` exactly when zero authors
were found over the whole institutions-by-keywords cross product; otherwise
it returns one record per unique author id, the surviving record being the
first occurrence in iteration order (institutions outer, keywords inner). -/
theorem claim_C4 (env : DiscoveryEnv) (universities keywords : List String)
    (h : ∀ u ∈ universities, pySplit u ≠ []) :
    C4Concl env universities keywords := by
  obtain ⟨d, hd⟩ := resolveAux_ok env universities [] h
  refine ⟨d, hd, ?_, ?_⟩
  · simp only [find_researchers_with_api, resolveInstitutions, hd]
    by_cases he : allFoundAuthors env d keywords = [] <;> simp [he]
  · intro x
    have hfil := dedupByIdAux_filter x (allFoundAuthors env d keywords) []
    simpa [drop_duplicates_by_id] using hfil

/-- Environment in which every request fails. -/
def envEmpty : DiscoveryEnv :=
  ⟨fun _ _ => none, fun _ _ => none, fun _ _ => none, fun _ => none,
    fun _ => EnrichRet.empty⟩

theorem claim_C4_witness : C4Concl envEmpty ["MIT"] ["cooling"] :=
  claim_C4 envEmpty ["MIT"] ["cooling"] (by decide)

example : find_researchers_with_api envEmpty ["MIT"] ["cooling"] =
    Except.ok none := by rfl

example : find_researchers_with_api envEmpty ["  "] ["cooling"] =
    Except.error () := by rfl

/-- Environment whose institution search resolves every name to the falsy id
`""` (the selected candidate's id ends in `'/'`), while the direct author
search would return an author. -/
def envFalsyId : DiscoveryEnv :=
  ⟨fun _ _ => some [⟨"https://openalex.org/", some "X"⟩], fun _ _ => none,
    fun _ _ => some [mkDA "https://openalex.org/A9"], fun _ => none,
    fun _ => EnrichRet.empty⟩

example : get_institution_id (envFalsyId.instPage "MIT") "MIT" =
    Except.ok (some "") := by rfl

example : resolveInstitutions envFalsyId ["MIT"] = Except.ok [] := by rfl

example : find_researchers_with_api envFalsyId ["MIT"] ["cooling"] =
    Except.ok none := by rfl
